import Mathlib

set_option maxHeartbeats 1000000

/-!
Shallow embedding of the generic entity-to-REST layer of
currentmember/common/service.py: the Entity class (row codec, SQL
statement construction, CRUD operations) and route_helper (HTTP
response envelope).

Conventions of the embedding:
* A Python dict with string keys is an association list in insertion
  order; dinsert mirrors dict assignment (overwrite in place, else
  append) and dictOfPairs mirrors a dict comprehension (left-to-right,
  last write wins).
* Raised exceptions are modelled with Except PyErr.  NotFound is the
  werkzeug exception that route_helper catches; every other exception
  is re-raised by route_helper and surfaces as Flask's generic HTTP
  500 response.
* The MySQL table backing an entity is a list of rows, each row being
  the raw values in all_columns order, which is exactly the order a
  SELECT of all_fields yields.
* Every executed statement is recorded as its SQL text, formatted as
  the source's f-strings format it, together with the bound parameter
  values.  Values are a type parameter alpha, as Python is untyped.
-/

/-- Python dict with string keys, as an association list in insertion order. -/
abbrev Dict (α : Type) : Type := List (String × α)

/-- Python dict lookup: first (and, for dicts, only) binding of the key. -/
def dlookup {α : Type} : Dict α → String → Option α
  | [], _ => none
  | (k, v) :: rest, key => if k = key then some v else dlookup rest key

/-- Python dict assignment d[k] = v: overwrite the existing binding in
place, otherwise append the new binding at the end. -/
def dinsert {α : Type} : Dict α → String → α → Dict α
  | [], k, v => [(k, v)]
  | (k1, v1) :: rest, k, v =>
    if k1 = k then (k, v) :: rest else (k1, v1) :: dinsert rest k v

/-- Dict built from a comprehension: insert the pairs left-to-right,
so on duplicate keys the last write wins. -/
def dictOfPairs {α : Type} (ps : List (String × α)) : Dict α :=
  ps.foldl (fun d p => dinsert d p.1 p.2) []

/-- Exceptions raised by the embedded code paths: werkzeug's NotFound
(raised by Entity.get), Python's KeyError carrying the missing key
(raised by dict subscription), and IndexError (row subscription). -/
inductive PyErr where
  | notFound
  | keyError (key : String)
  | indexError
deriving DecidableEq

/-- Decidable equality for Except results, so concrete runs can be
checked by evaluation. -/
instance exceptDecEq {ε α : Type} [DecidableEq ε] [DecidableEq α] :
    DecidableEq (Except ε α) := fun x y =>
  match x, y with
  | .error a, .error b =>
    if h : a = b then isTrue (by rw [h])
    else isFalse (fun hh => h (Except.error.inj hh))
  | .error _, .ok _ => isFalse (fun hh => Except.noConfusion hh)
  | .ok _, .error _ => isFalse (fun hh => Except.noConfusion hh)
  | .ok a, .ok b =>
    if h : a = b then isTrue (by rw [h])
    else isFalse (fun hh => h (Except.ok.inj hh))

/-- The Entity class of service.py after __init__ has run.  The db
connection attribute is omitted: the backing table's rows are passed
explicitly to each operation instead. -/
structure Entity (α : Type) where
  table : String
  columns : List String
  all_columns : List String
  column_name2exposed_name : Dict String
  read_transforms : Dict (α → α)
  write_transforms : Dict (α → α)
  allow_delete : Bool
  fields : String
  all_fields : String

/-- The three dictionaries that are default arguments of
Entity.__init__.  Python evaluates the default expressions once at
function definition time, so all constructions that rely on the
defaults share (and mutate) the same three dict objects; the embedding
threads them through entityInit explicitly. -/
structure InitState (α : Type) where
  read_transforms : Dict (α → α)
  write_transforms : Dict (α → α)
  exposed_column_names : Dict String

/-- One iteration of the __init__ loop over all_columns: insert the
default exposed name (the column name itself) and the default identity
read/write transforms for a column that has no entry yet.  The three
checks happen in the source's order. -/
def fillDefaultsFor {α : Type} (st : InitState α) (c : String) : InitState α :=
  let ex := if (dlookup st.exposed_column_names c).isSome then st.exposed_column_names
            else dinsert st.exposed_column_names c c
  let rt := if (dlookup st.read_transforms c).isSome then st.read_transforms
            else dinsert st.read_transforms c (fun x => x)
  let wt := if (dlookup st.write_transforms c).isSome then st.write_transforms
            else dinsert st.write_transforms c (fun x => x)
  ⟨rt, wt, ex⟩

/-- Entity.__init__: all_columns is the writable columns copied, the
read-only columns appended, and "id" inserted at position 0; the three
dictionaries are filled with defaults for absent columns, in place; the
comma-joined column lists are precomputed.  Returns the constructed
entity together with the mutated dictionaries (which the entity's own
fields alias). -/
def entityInit {α : Type} (table : String) (columns read_columns : List String)
    (st : InitState α) (allow_delete : Bool) : Entity α × InitState α :=
  let all_columns := "id" :: (columns ++ read_columns)
  let st2 := all_columns.foldl fillDefaultsFor st
  (⟨table, columns, all_columns, st2.exposed_column_names, st2.read_transforms,
    st2.write_transforms, allow_delete,
    String.intercalate "," columns, String.intercalate "," all_columns⟩, st2)

/-- One executed SQL statement: its text exactly as the source formats
it, plus the bound parameter values. -/
structure Stmt (α : Type) where
  sql : String
  params : List α
deriving DecidableEq

/-- The rows of the backing table, each in all_columns order (the id
value at position 0). -/
abbrev Db (α : Type) : Type := List (List α)

/-- Entity._convert_to_row, one writable column at a time.  For each
column the source evaluates self.write_transforms[col], then
self.column_name2exposed_name[col], then data[...]; a missing key
raises KeyError at the first failing column. -/
def convRowAux {α : Type} (e : Entity α) (data : Dict α) :
    List String → Except PyErr (List α)
  | [] => .ok []
  | c :: cs =>
    match dlookup e.write_transforms c with
    | none => .error (.keyError c)
    | some f =>
      match dlookup e.column_name2exposed_name c with
      | none => .error (.keyError c)
      | some ex =>
        match dlookup data ex with
        | none => .error (.keyError ex)
        | some v =>
          match convRowAux e data cs with
          | .error err => .error err
          | .ok vs => .ok (f v :: vs)

/-- Entity._convert_to_row: one transformed value per writable column,
in the order of self.columns. -/
def convert_to_row {α : Type} (e : Entity α) (data : Dict α) : Except PyErr (List α) :=
  convRowAux e data e.columns

/-- The key/value pairs of the dict comprehension in
Entity._convert_to_dict, one column at a time.  Per item the source
evaluates the key self.column_name2exposed_name[self.all_columns[i]],
then self.read_transforms[self.all_columns[i]], then row[i]; a row
shorter than all_columns raises IndexError, extra row values are
ignored (range runs over len(all_columns)). -/
def convPairs {α : Type} (e : Entity α) :
    List String → List α → Except PyErr (List (String × α))
  | [], _ => .ok []
  | c :: cs, row =>
    match dlookup e.column_name2exposed_name c with
    | none => .error (.keyError c)
    | some ex =>
      match dlookup e.read_transforms c with
      | none => .error (.keyError c)
      | some f =>
        match row with
        | [] => .error .indexError
        | v :: vs =>
          match convPairs e cs vs with
          | .error err => .error err
          | .ok rest => .ok ((ex, f v) :: rest)

/-- Entity._convert_to_dict: the dict comprehension that zips
all_columns positionally against the row, applies the read transform to
the raw stored value and keys the result by the exposed name. -/
def convert_to_dict {α : Type} (e : Entity α) (row : List α) : Except PyErr (Dict α) :=
  match convPairs e e.all_columns row with
  | .error err => .error err
  | .ok pairs => .ok (dictOfPairs pairs)

/-- Result of one Entity operation: the value returned or the exception
raised, the table rows afterwards, and the statements executed. -/
structure OpResult (α : Type) (β : Type) where
  res : Except PyErr β
  db : Db α
  stmts : List (Stmt α)

/-- Entity.get: SELECT of all_fields filtered by id only; fetchone
returning no row raises NotFound, otherwise the row is decoded. -/
def Entity.get {α : Type} [DecidableEq α] (e : Entity α) (db : Db α) (id : α) :
    OpResult α (Dict α) :=
  let s : Stmt α := ⟨"SELECT " ++ e.all_fields ++ " FROM " ++ e.table ++ " WHERE id=%s", [id]⟩
  match db.find? (fun r => decide (r.head? = some id)) with
  | none => ⟨.error .notFound, db, [s]⟩
  | some row => ⟨convert_to_dict e row, db, [s]⟩

/-- Entity.put: encode the body first (a missing field raises KeyError
before any SQL), then UPDATE the writable columns of the rows whose id
matches; the read-only tail of a row is untouched and put returns
None whether or not any row matched. -/
def Entity.put {α : Type} [DecidableEq α] (e : Entity α) (db : Db α) (data : Dict α)
    (id : α) : OpResult α Unit :=
  match convert_to_row e data with
  | .error err => ⟨.error err, db, []⟩
  | .ok values =>
    let setCols := String.intercalate "," (e.columns.map (fun c => c ++ "=%s"))
    ⟨.ok (), db.map (fun r =>
        if r.head? = some id then
          match r with
          | [] => []
          | h :: t => h :: (values ++ t.drop e.columns.length)
        else r),
      [⟨"UPDATE " ++ e.table ++ " SET " ++ setCols ++ " WHERE id=%s", values ++ [id]⟩]⟩

/-- Entity.post: encode the body first (a missing field raises KeyError
before any SQL), then INSERT into the writable columns and re-read the
new row with Entity.get on cur.lastrowid.  The store-generated id and
the store-generated read-only values (timestamps etc.) are inputs of
the model. -/
def Entity.post {α : Type} [DecidableEq α] (e : Entity α) (db : Db α) (data : Dict α)
    (lastrowid : α) (generated : List α) : OpResult α (Dict α) :=
  match convert_to_row e data with
  | .error err => ⟨.error err, db, []⟩
  | .ok values =>
    let cols := String.intercalate "," (e.columns.map (fun _ => "%s"))
    let ins : Stmt α := ⟨"INSERT INTO " ++ e.table ++ " (" ++ e.fields ++ ") VALUES(" ++ cols ++ ")", values⟩
    let db2 := db ++ [lastrowid :: values ++ generated]
    let g := e.get db2 lastrowid
    ⟨g.res, g.db, ins :: g.stmts⟩

/-- What Entity.delete returns: the werkzeug MethodNotAllowed instance
that is returned (not raised) when allow_delete is false, or Python's
None. -/
inductive DeleteOutcome where
  | methodNotAllowedObj
  | noneRes
deriving DecidableEq

/-- Position of the deleted_at column inside a stored row, i.e. its
index in all_columns. -/
def deletedAtIdx {α : Type} (e : Entity α) : Nat :=
  e.all_columns.findIdx (fun c => c == "deleted_at")

/-- Entity.delete: when allow_delete is false, return MethodNotAllowed()
without touching storage; otherwise execute the single UPDATE that sets
deleted_at to CURRENT_TIMESTAMP on the matching rows.  The db.map
models MySQL executing that UPDATE, with now the server's current
timestamp; no row is removed. -/
def Entity.delete {α : Type} [DecidableEq α] (e : Entity α) (db : Db α) (id now : α) :
    DeleteOutcome × Db α × List (Stmt α) :=
  if e.allow_delete = false then (.methodNotAllowedObj, db, [])
  else
    (.noneRes,
     db.map (fun r => if r.head? = some id then r.set (deletedAtIdx e) now else r),
     [⟨"UPDATE " ++ e.table ++ " SET deleted_at=CURRENT_TIMESTAMP WHERE id=%s", [id]⟩])

/-- The where argument of Entity.list: either the module-level
DEFAULT_WHERE sentinel (the default), or a caller-supplied value, which
is None or a filter expression string. -/
inductive WhereParam where
  | defaultW
  | custom (w : Option String)

/-- The SELECT statement Entity.list executes: the sentinel is replaced
by "deleted_at IS NULL" when allow_delete is true and by None
otherwise; a None filter contributes the empty string, any other
filter is prefixed with the WHERE keyword. -/
def listStmt {α : Type} (e : Entity α) (wp : WhereParam) (where_values : List α) : Stmt α :=
  let w : Option String :=
    match wp with
    | .defaultW => if e.allow_delete then some "deleted_at IS NULL" else none
    | .custom w => w
  let whereStr :=
    match w with
    | some s => "WHERE " ++ s
    | none => ""
  ⟨"SELECT " ++ e.all_fields ++ " FROM " ++ e.table ++ " " ++ whereStr, where_values⟩

/-- Entity.list: build the SELECT, then decode every fetched row.  The
rows the store returns for the arbitrary filter text are an input of
the model. -/
def Entity.list {α : Type} (e : Entity α) (wp : WhereParam) (where_values : List α)
    (fetched : List (List α)) : Except PyErr (List (Dict α)) × Stmt α :=
  (fetched.mapM (fun row => convert_to_dict e row), listStmt e wp where_values)

/-- The data part of a route_helper JSON response: a single record, a
list of records, or a returned exception object that gets serialized
into the envelope (Entity.delete returns MethodNotAllowed() as a
value). -/
inductive RouteData (α : Type) where
  | record (d : Dict α)
  | records (ds : List (Dict α))
  | exceptionObj (nm : String)
deriving DecidableEq

/-- An HTTP response: status code, the status field of the JSON body,
and the optional data field. -/
structure HttpResponse (α : Type) where
  code : Nat
  status : String
  data : Option (RouteData α)
deriving DecidableEq

/-- route_helper: a NotFound raised by the wrapped operation becomes
404 with body status "not found"; any other exception is re-raised and
Flask answers with its generic 500 response; a None result yields the
bare success envelope, any other result is placed in the data field,
both with HTTP 200. -/
def route_helper {α : Type} (statusLabel : String)
    (r : Except PyErr (Option (RouteData α))) : HttpResponse α :=
  match r with
  | .error .notFound => ⟨404, "not found", none⟩
  | .error _ => ⟨500, "internal server error", none⟩
  | .ok none => ⟨200, statusLabel, none⟩
  | .ok (some v) => ⟨200, statusLabel, some v⟩

/-- The GET basePath/id route: route_helper(self.get, status="ok"). -/
def getRoute {α : Type} [DecidableEq α] (e : Entity α) (db : Db α) (id : α) :
    HttpResponse α × Db α × List (Stmt α) :=
  let o := e.get db id
  (route_helper "ok" (o.res.map (fun d => some (.record d))), o.db, o.stmts)

/-- The PUT basePath/id route: route_helper(self.put, json=True,
status="updated"); put returns None, so a successful call yields the
bare envelope. -/
def putRoute {α : Type} [DecidableEq α] (e : Entity α) (db : Db α) (data : Dict α)
    (id : α) : HttpResponse α × Db α × List (Stmt α) :=
  let o := e.put db data id
  (route_helper "updated" (o.res.map (fun _ => none)), o.db, o.stmts)

/-- The DELETE basePath/id route: route_helper(self.delete,
status="deleted").  A MethodNotAllowed instance returned by delete is
a non-None result, so it is serialized into the data field of a 200
response. -/
def deleteRoute {α : Type} [DecidableEq α] (e : Entity α) (db : Db α) (id now : α) :
    HttpResponse α × Db α × List (Stmt α) :=
  let o := e.delete db id now
  (route_helper "deleted" (.ok (match o.1 with
      | .methodNotAllowedObj => some (.exceptionObj "MethodNotAllowed")
      | .noneRes => none)), o.2.1, o.2.2)

/-- The POST basePath route: route_helper(self.post, json=True,
status="created"). -/
def postRoute {α : Type} [DecidableEq α] (e : Entity α) (db : Db α) (data : Dict α)
    (lastrowid : α) (generated : List α) : HttpResponse α × Db α × List (Stmt α) :=
  let o := e.post db data lastrowid generated
  (route_helper "created" (o.res.map (fun d => some (.record d))), o.db, o.stmts)

/-- Exposed name of a column: the dict access
self.column_name2exposed_name[col], which after construction always
finds an entry (the default being the column name itself). -/
def exposedOf {α : Type} (e : Entity α) (c : String) : String :=
  (dlookup e.column_name2exposed_name c).getD c

/-- Read transform of a column applied to a value, the default being
the identity (which is what construction fills in). -/
def applyRT {α : Type} (e : Entity α) (c : String) (v : α) : α :=
  match dlookup e.read_transforms c with
  | some f => f v
  | none => v

/-- Write transform of a column applied to a value, the default being
the identity (which is what construction fills in). -/
def applyWT {α : Type} (e : Entity α) (c : String) (v : α) : α :=
  match dlookup e.write_transforms c with
  | some f => f v
  | none => v

/-! ## General helper lemmas -/

lemma map_eq_self_of {β : Type} (l : List β) (f : β → β) (h : ∀ x ∈ l, f x = x) :
    l.map f = l := by
  conv_rhs => rw [← List.map_id l]
  exact List.map_congr_left h

lemma mem_iff_getElemQ {β : Type} (l : List β) (a : β) :
    a ∈ l ↔ ∃ i : Nat, l[i]? = some a := by
  constructor
  · intro h
    obtain ⟨i, hlt, hi⟩ := List.getElem_of_mem h
    exact ⟨i, by rw [List.getElem?_eq_getElem hlt, hi]⟩
  · intro ⟨i, hi⟩
    exact List.getElem?_mem hi

/-- convPairs can raise KeyError or IndexError but never NotFound. -/
lemma convPairs_ne_notFound {α : Type} (e : Entity α) :
    ∀ (cs : List String) (row : List α), convPairs e cs row ≠ .error .notFound := by
  intro cs
  induction cs with
  | nil => intro row h; simp [convPairs] at h
  | cons c cs ih =>
    intro row h
    simp only [convPairs] at h
    cases h1 : dlookup e.column_name2exposed_name c with
    | none => simp [h1] at h
    | some ex =>
      simp only [h1] at h
      cases h2 : dlookup e.read_transforms c with
      | none => simp [h2] at h
      | some f =>
        simp only [h2] at h
        cases row with
        | nil => simp at h
        | cons v vs =>
          cases h3 : convPairs e cs vs with
          | error err =>
            simp only [h3] at h
            have herr : err = PyErr.notFound := Except.error.inj h
            exact ih vs (by rw [h3, herr])
          | ok rest => simp [h3] at h

/-- convert_to_dict never raises NotFound. -/
lemma convert_to_dict_ne_notFound {α : Type} (e : Entity α) (row : List α) :
    convert_to_dict e row ≠ .error .notFound := by
  intro h
  unfold convert_to_dict at h
  cases h3 : convPairs e e.all_columns row with
  | error err =>
    rw [h3] at h
    exact convPairs_ne_notFound e e.all_columns row
      (h3.trans (congrArg Except.error (Except.error.inj h)))
  | ok pairs => rw [h3] at h; exact Except.noConfusion h

/-! ## C1 -/

/-- C1: Entity.get filters by id only, so a soft-deleted row is still
returned by id — its result is NotFound exactly when no row carries the
id, whatever any row's deleted_at holds, and the executed SELECT's only
filter is WHERE id=%s — while Entity.list with the default filter emits
WHERE deleted_at IS NULL exactly when allow_delete is true and no WHERE
clause at all when allow_delete is false. -/
theorem get_bypasses_delete_filter_list_applies_it {α : Type} [DecidableEq α]
    (e : Entity α) (db : Db α) (id : α) (vals : List α) :
    ((e.get db id).res = .error .notFound ↔ ∀ r ∈ db, ¬ r.head? = some id) ∧
    (e.get db id).stmts =
      [⟨"SELECT " ++ e.all_fields ++ " FROM " ++ e.table ++ " WHERE id=%s", [id]⟩] ∧
    listStmt e .defaultW vals =
      ⟨"SELECT " ++ e.all_fields ++ " FROM " ++ e.table ++ " " ++
        (if e.allow_delete then "WHERE deleted_at IS NULL" else ""), vals⟩ := by
  refine ⟨?_, ?_, ?_⟩
  · cases hf : db.find? (fun r => decide (r.head? = some id)) with
    | none =>
      simp only [Entity.get, hf]
      constructor
      · intro _ r hr
        have := List.find?_eq_none.mp hf r hr
        simpa using this
      · intro _; trivial
    | some row =>
      simp only [Entity.get, hf]
      constructor
      · intro h
        exact absurd h (convert_to_dict_ne_notFound e row)
      · intro hall
        have hp := List.find?_some hf
        have hm := List.mem_of_find?_eq_some hf
        exact absurd (decide_eq_true_iff.mp hp) (hall row hm)
  · cases hf : db.find? (fun r => decide (r.head? = some id)) <;> simp [Entity.get, hf]
  · cases hd : e.allow_delete <;> simp [listStmt, hd]

/-- C1 witness: a concrete soft-deleted row (non-null deleted_at, last
position) is still found by get, and the concrete default list filter
is WHERE deleted_at IS NULL. -/
theorem get_bypasses_delete_filter_witness :
    ((((entityInit "grp" ["name"] ["deleted_at"] (⟨[], [], []⟩ : InitState Int) true).1).get
        [[1, 10, 77]] 1).res = .error .notFound ↔
      ∀ r ∈ [[(1 : Int), 10, 77]], ¬ r.head? = some 1) ∧
    listStmt ((entityInit "grp" ["name"] ["deleted_at"] (⟨[], [], []⟩ : InitState Int) true).1)
        .defaultW ([] : List Int) =
      ⟨"SELECT id,name,deleted_at FROM grp WHERE deleted_at IS NULL", []⟩ := by
  have h := get_bypasses_delete_filter_list_applies_it
    ((entityInit "grp" ["name"] ["deleted_at"] (⟨[], [], []⟩ : InitState Int) true).1)
    [[1, 10, 77]] 1 []
  refine ⟨h.1, ?_⟩
  rw [h.2.2]
  decide

/-! ## Concrete entities used by witnesses and counterexamples -/

/-- The membership group entity of the repository's test suite: writable
name, title and description, read-only timestamps, id exposed as
group_id, deletable; values are Ints. -/
def groupEntity : Entity Int :=
  (entityInit "membership_group" ["name", "title", "description"]
    ["created_at", "updated_at", "deleted_at"]
    ⟨[], [], [("id", "group_id")]⟩ true).1

/-- The same schema constructed with allow_delete false. -/
def groupEntityNoDel : Entity Int :=
  (entityInit "membership_group" ["name", "title", "description"]
    ["created_at", "updated_at", "deleted_at"]
    ⟨[], [], [("id", "group_id")]⟩ false).1

/-! ## C5 -/

/-- C5: delete on an entity with allow_delete false returns the
MethodNotAllowed result without touching storage (no statement, table
unchanged); with allow_delete true it returns None and executes exactly
one UPDATE that sets deleted_at to the current server time: the row
count is preserved, every row keeps all its values except possibly the
deleted_at position, which becomes now on the rows whose id matches —
no row is ever removed. -/
theorem delete_soft_or_method_not_allowed {α : Type} [DecidableEq α]
    (e : Entity α) (db : Db α) (id now : α) :
    (e.allow_delete = false → e.delete db id now = (.methodNotAllowedObj, db, [])) ∧
    (e.allow_delete = true →
      (e.delete db id now).1 = .noneRes ∧
      (e.delete db id now).2.2 =
        [⟨"UPDATE " ++ e.table ++ " SET deleted_at=CURRENT_TIMESTAMP WHERE id=%s", [id]⟩] ∧
      (e.delete db id now).2.1.length = db.length ∧
      (∀ i : Nat, ∀ r : List α, db[i]? = some r →
        ∃ r2 : List α, (e.delete db id now).2.1[i]? = some r2 ∧
          r2.length = r.length ∧
          (∀ j : Nat, j ≠ deletedAtIdx e → r2[j]? = r[j]?) ∧
          (r.head? = some id → deletedAtIdx e < r.length →
            r2[deletedAtIdx e]? = some now) ∧
          (¬ r.head? = some id → r2 = r))) := by
  constructor
  · intro h; simp [Entity.delete, h]
  · intro h
    have hred : e.delete db id now =
        (.noneRes,
         db.map (fun r => if r.head? = some id then r.set (deletedAtIdx e) now else r),
         [⟨"UPDATE " ++ e.table ++ " SET deleted_at=CURRENT_TIMESTAMP WHERE id=%s", [id]⟩]) := by
      simp [Entity.delete, h]
    refine ⟨by rw [hred], by rw [hred], by rw [hred]; simp, ?_⟩
    intro i r hir
    rw [hred]
    refine ⟨if r.head? = some id then r.set (deletedAtIdx e) now else r, ?_, ?_, ?_, ?_, ?_⟩
    · simp [List.getElem?_map, hir]
    · by_cases hc : r.head? = some id <;> simp [hc]
    · intro j hj
      by_cases hc : r.head? = some id <;> simp only [hc, if_pos, if_neg, if_true, if_false]
      · exact List.getElem?_set_ne (Ne.symm hj)
    · intro hc hlt
      simp only [hc, if_pos]
      exact List.getElem?_set_self hlt
    · intro hc
      simp [hc]

/-- C5 witness: on a one-row table, delete with allow_delete false
returns MethodNotAllowed and leaves everything alone; delete with
allow_delete true executes the single soft-delete UPDATE, keeps the
row, sets its deleted_at position (index 6) to the server time 99 and
leaves its name position (index 1) unchanged. -/
theorem delete_soft_witness :
    groupEntityNoDel.delete [[1, 10, 11, 12, 0, 0, 0]] 1 99 =
      (.methodNotAllowedObj, [[1, 10, 11, 12, 0, 0, 0]], []) ∧
    (groupEntity.delete [[1, 10, 11, 12, 0, 0, 0]] 1 99).1 = .noneRes ∧
    (groupEntity.delete [[1, 10, 11, 12, 0, 0, 0]] 1 99).2.2 =
      [⟨"UPDATE membership_group SET deleted_at=CURRENT_TIMESTAMP WHERE id=%s", [1]⟩] ∧
    (groupEntity.delete [[1, 10, 11, 12, 0, 0, 0]] 1 99).2.1.length = 1 ∧
    (∃ r2 : List Int, (groupEntity.delete [[1, 10, 11, 12, 0, 0, 0]] 1 99).2.1[0]? = some r2 ∧
      r2[6]? = some 99 ∧ r2[1]? = some 10) := by
  have h1 := delete_soft_or_method_not_allowed groupEntityNoDel [[1, 10, 11, 12, 0, 0, 0]] 1 99
  have h2 := delete_soft_or_method_not_allowed groupEntity [[1, 10, 11, 12, 0, 0, 0]] 1 99
  have hb := h2.2 rfl
  have hidx : deletedAtIdx groupEntity = 6 := by decide
  refine ⟨h1.1 rfl, hb.1, ?_, ?_, ?_⟩
  · rw [hb.2.1]; decide
  · rw [hb.2.2.1]; rfl
  · obtain ⟨r2, hr2, _, hne, hset, _⟩ := hb.2.2.2 0 [1, 10, 11, 12, 0, 0, 0] rfl
    refine ⟨r2, hr2, ?_, ?_⟩
    · have := hset rfl (by rw [hidx]; decide)
      rwa [hidx] at this
    · have := hne 1 (by rw [hidx]; decide)
      rwa [show ([(1 : Int), 10, 11, 12, 0, 0, 0])[1]? = some 10 from rfl] at this

/-! ## C8 -/

/-- C8 (amended): all_columns is exactly id first, then the writable
columns, then the read-only columns, each in the given order — for
every input, duplicates included: construction performs no duplicate
check and cannot fail (the source defines no ConfigurationError). -/
theorem entityInit_all_columns_order {α : Type} (table : String)
    (columns read_columns : List String) (st : InitState α) (ad : Bool) :
    (entityInit table columns read_columns st ad).1.all_columns =
      "id" :: (columns ++ read_columns) := rfl

/-- C8 counterexample: constructing with the same column name in both
the writable and the read-only list does not fail with a
ConfigurationError — it succeeds and yields a descriptor whose
all_columns and all_fields contain the duplicated column. -/
theorem entityInit_duplicate_columns_accepted :
    (entityInit "t" ["a"] ["a"] (⟨[], [], []⟩ : InitState Int) true).1.all_columns
      = ["id", "a", "a"] ∧
    (entityInit "t" ["a"] ["a"] (⟨[], [], []⟩ : InitState Int) true).1.all_fields
      = "id,a,a" := by
  exact ⟨rfl, by decide⟩

/-! ## C9 -/

/-- C9 (amended): a caller-supplied filter expression and its bound
values are used as the WHERE clause of the SELECT, and an explicit None
filter produces a statement with no WHERE clause at all; but an
explicit empty-string filter still emits the WHERE keyword with an
empty condition, not a statement without WHERE. -/
theorem list_custom_filter {α : Type} (e : Entity α) (w : String) (vals : List α) :
    listStmt e (.custom (some w)) vals =
      ⟨"SELECT " ++ e.all_fields ++ " FROM " ++ e.table ++ " " ++ ("WHERE " ++ w), vals⟩ ∧
    listStmt e (.custom none) vals =
      ⟨"SELECT " ++ e.all_fields ++ " FROM " ++ e.table ++ " ", vals⟩ := by
  constructor
  · rfl
  · show Stmt.mk ("SELECT " ++ e.all_fields ++ " FROM " ++ e.table ++ " " ++ "") vals = _
    rw [String.append_empty]

/-- Entity with table t and the single writable column a, used to
exhibit the empty-filter behavior of list. -/
def tinyEntity : Entity Int := (entityInit "t" ["a"] [] ⟨[], [], []⟩ true).1

/-- C9 counterexample: an explicit empty-string filter does not produce
the no-WHERE statement that an explicit None filter produces — the SQL
still contains a trailing WHERE keyword. -/
theorem list_empty_filter_still_where :
    (listStmt tinyEntity (.custom (some "")) ([] : List Int)).sql
      = "SELECT id,a FROM t WHERE " ∧
    listStmt tinyEntity (.custom (some "")) ([] : List Int) ≠
      listStmt tinyEntity (.custom none) ([] : List Int) := by
  exact ⟨by decide, by decide⟩

/-! ## C3 -/

/-- C3 (amended): on an id with no matching row, get responds 404 with
body status "not found"; but put (with a complete body) and delete (on
a deletable entity) do not — their UPDATE simply matches zero rows, the
table is unchanged, and they respond 200 with status "updated"
respectively "deleted". -/
theorem missing_id_get_404_put_delete_200 {α : Type} [DecidableEq α]
    (e : Entity α) (db : Db α) (data : Dict α) (vs : List α) (id now : α)
    (hno : ∀ r ∈ db, ¬ r.head? = some id)
    (henc : convert_to_row e data = .ok vs)
    (hd : e.allow_delete = true) :
    (getRoute e db id).1 = ⟨404, "not found", none⟩ ∧
    (putRoute e db data id).1 = ⟨200, "updated", none⟩ ∧
    (putRoute e db data id).2.1 = db ∧
    (deleteRoute e db id now).1 = ⟨200, "deleted", none⟩ ∧
    (deleteRoute e db id now).2.1 = db := by
  have hf : db.find? (fun r => decide (r.head? = some id)) = none := by
    apply List.find?_eq_none.mpr
    intro r hr
    simpa using hno r hr
  refine ⟨?_, ?_, ?_, ?_, ?_⟩
  · simp [getRoute, Entity.get, hf, route_helper, Except.map]
  · simp [putRoute, Entity.put, henc, route_helper, Except.map]
  · simp only [putRoute, Entity.put, henc]
    apply map_eq_self_of
    intro r hr
    simp [hno r hr]
  · simp [deleteRoute, Entity.delete, hd, route_helper]
  · simp only [deleteRoute, Entity.delete, hd, Bool.true_eq_false, if_false]
    apply map_eq_self_of
    intro r hr
    simp [hno r hr]

/-- C3 counterexample: with an empty table (so id 1 matches no row),
PUT and DELETE do not respond 404 not found as the claim states — both
respond 200 with their success labels. -/
theorem missing_id_put_delete_not_404 :
    (putRoute groupEntity [] [("name", 5), ("title", 6), ("description", 7)] 1).1
      = ⟨200, "updated", none⟩ ∧
    (putRoute groupEntity [] [("name", 5), ("title", 6), ("description", 7)] 1).1.code ≠ 404 ∧
    (deleteRoute groupEntity ([] : Db Int) 1 99).1 = ⟨200, "deleted", none⟩ := by
  refine ⟨by decide, by decide, by decide⟩

/-- C3 witness: the amended behavior at a concrete instance — get on
the empty table responds 404 not found, put and delete respond 200. -/
theorem missing_id_routes_witness :
    (getRoute groupEntity ([] : Db Int) 1).1 = ⟨404, "not found", none⟩ ∧
    (putRoute groupEntity [] [("name", 8), ("title", 9), ("description", 10)] 1).1
      = ⟨200, "updated", none⟩ ∧
    (deleteRoute groupEntity ([] : Db Int) 1 99).1 = ⟨200, "deleted", none⟩ := by
  have h := missing_id_get_404_put_delete_200 groupEntity []
    [("name", 8), ("title", 9), ("description", 10)] [8, 9, 10] 1 99
    (by simp) (by decide) rfl
  exact ⟨h.1, h.2.1, h.2.2.2.1⟩

/-! ## C4 -/

/-- C4: POSTing the empty record on an entity with writable columns
issues no SQL and inserts no row — encoding fails before any statement —
but the failure is an uncaught KeyError surfacing as the generic HTTP
500 response, not the 400/422 validation response naming the missing
field that the spec and the repository's own test
(test_can_not_create_with_empty_data, expecting 422) require. -/
theorem post_empty_record_uncaught_keyerror :
    (postRoute groupEntity [] [] 0 []).1 = ⟨500, "internal server error", none⟩ ∧
    (postRoute groupEntity [] [] 0 []).2.1 = [] ∧
    (postRoute groupEntity [] [] 0 []).2.2 = [] ∧
    (groupEntity.post [] [] 0 []).res = .error (.keyError "name") := by
  refine ⟨by decide, by decide, by decide, by decide⟩

/-! ## Dict lemmas -/

lemma dlookup_dinsert_self {α : Type} (d : Dict α) (k : String) (v : α) :
    dlookup (dinsert d k v) k = some v := by
  induction d with
  | nil => simp [dinsert, dlookup]
  | cons p rest ih =>
    obtain ⟨k1, v1⟩ := p
    by_cases h : k1 = k
    · simp [dinsert, h, dlookup]
    · simp [dinsert, h, dlookup, ih]

lemma dlookup_dinsert_ne {α : Type} (d : Dict α) (k k2 : String) (v : α) (hne : k2 ≠ k) :
    dlookup (dinsert d k v) k2 = dlookup d k2 := by
  induction d with
  | nil => simp [dinsert, dlookup, Ne.symm hne]
  | cons p rest ih =>
    obtain ⟨k1, v1⟩ := p
    by_cases h : k1 = k
    · subst h
      simp [dinsert, dlookup, Ne.symm hne]
    · by_cases h2 : k1 = k2
      · subst h2
        simp [dinsert, h, dlookup]
      · simp [dinsert, h, dlookup, h2, ih]

lemma dlookup_mem {α : Type} (d : Dict α) (k : String) (v : α)
    (h : dlookup d k = some v) : (k, v) ∈ d := by
  induction d with
  | nil => simp [dlookup] at h
  | cons p rest ih =>
    obtain ⟨k1, v1⟩ := p
    by_cases h1 : k1 = k
    · subst h1
      simp [dlookup] at h
      subst h
      exact List.mem_cons_self _ _
    · simp [dlookup, h1] at h
      exact List.mem_cons_of_mem _ (ih h)

lemma mem_dinsert {α : Type} (d : Dict α) (k : String) (v : α) (p : String × α)
    (h : p ∈ dinsert d k v) : p = (k, v) ∨ p ∈ d := by
  induction d with
  | nil =>
    simp only [dinsert] at h
    rcases List.mem_cons.mp h with h2 | h2
    · exact Or.inl h2
    · simp at h2
  | cons q rest ih =>
    obtain ⟨k1, v1⟩ := q
    simp only [dinsert] at h
    by_cases h1 : k1 = k
    · rw [if_pos h1] at h
      rcases List.mem_cons.mp h with h2 | h2
      · exact Or.inl h2
      · exact Or.inr (List.mem_cons_of_mem _ h2)
    · rw [if_neg h1] at h
      rcases List.mem_cons.mp h with h2 | h2
      · exact Or.inr (by rw [h2]; exact List.mem_cons_self _ _)
      · rcases ih h2 with h3 | h3
        · exact Or.inl h3
        · exact Or.inr (List.mem_cons_of_mem _ h3)

lemma dlookup_foldl_not_mem {α : Type} :
    ∀ (ps : List (String × α)) (d0 : Dict α) (k : String),
      k ∉ ps.map Prod.fst →
      dlookup (ps.foldl (fun d p => dinsert d p.1 p.2) d0) k = dlookup d0 k := by
  intro ps
  induction ps with
  | nil => intro d0 k _; rfl
  | cons p ps ih =>
    intro d0 k h
    have h1 : ¬ k = p.1 := fun hh => h (by simp [hh])
    have h2 : k ∉ ps.map Prod.fst := fun hm => h (by simp [hm])
    simp only [List.foldl_cons]
    rw [ih _ k h2, dlookup_dinsert_ne _ _ _ _ h1]

lemma dlookup_foldl_mem {α : Type} :
    ∀ (ps : List (String × α)) (d0 : Dict α) (k : String) (v : α),
      (ps.map Prod.fst).Nodup → (k, v) ∈ ps →
      dlookup (ps.foldl (fun d p => dinsert d p.1 p.2) d0) k = some v := by
  intro ps
  induction ps with
  | nil => intro d0 k v _ h; simp at h
  | cons p ps ih =>
    intro d0 k v hnd hm
    simp only [List.map_cons, List.nodup_cons] at hnd
    obtain ⟨hnotin, hnd2⟩ := hnd
    simp only [List.foldl_cons]
    rcases List.mem_cons.mp hm with h | h
    · rw [← h] at hnotin ⊢
      rw [dlookup_foldl_not_mem ps _ k hnotin]
      exact dlookup_dinsert_self d0 k v
    · exact ih _ k v hnd2 h

/-- Lookup in a comprehension-built dict whose keys are distinct finds
the pair's value. -/
lemma dlookup_dictOfPairs {α : Type} (ps : List (String × α)) (k : String) (v : α)
    (hnd : (ps.map Prod.fst).Nodup) (hm : (k, v) ∈ ps) :
    dlookup (dictOfPairs ps) k = some v :=
  dlookup_foldl_mem ps [] k v hnd hm

/-! ## Construction lemmas -/

lemma fillDefaultsFor_mono_ex {α : Type} (st : InitState α) (c k v : String)
    (h : dlookup st.exposed_column_names k = some v) :
    dlookup (fillDefaultsFor st c).exposed_column_names k = some v := by
  unfold fillDefaultsFor
  by_cases hc : (dlookup st.exposed_column_names c).isSome
  · simpa [hc] using h
  · simp only [hc, Bool.false_eq_true, if_false]
    by_cases hkc : k = c
    · exfalso
      rw [hkc] at h
      exact hc (by rw [h]; rfl)
    · rw [dlookup_dinsert_ne _ _ _ _ hkc]
      exact h

lemma fillDefaultsFor_mono_rt {α : Type} (st : InitState α) (c k : String) (v : α → α)
    (h : dlookup st.read_transforms k = some v) :
    dlookup (fillDefaultsFor st c).read_transforms k = some v := by
  unfold fillDefaultsFor
  by_cases hc : (dlookup st.read_transforms c).isSome
  · simpa [hc] using h
  · simp only [hc, Bool.false_eq_true, if_false]
    by_cases hkc : k = c
    · exfalso
      rw [hkc] at h
      exact hc (by rw [h]; rfl)
    · rw [dlookup_dinsert_ne _ _ _ _ hkc]
      exact h

lemma fillDefaultsFor_mono_wt {α : Type} (st : InitState α) (c k : String) (v : α → α)
    (h : dlookup st.write_transforms k = some v) :
    dlookup (fillDefaultsFor st c).write_transforms k = some v := by
  unfold fillDefaultsFor
  by_cases hc : (dlookup st.write_transforms c).isSome
  · simpa [hc] using h
  · simp only [hc, Bool.false_eq_true, if_false]
    by_cases hkc : k = c
    · exfalso
      rw [hkc] at h
      exact hc (by rw [h]; rfl)
    · rw [dlookup_dinsert_ne _ _ _ _ hkc]
      exact h

lemma foldl_fill_mono_ex {α : Type} :
    ∀ (l : List String) (st : InitState α) (k v : String),
      dlookup st.exposed_column_names k = some v →
      dlookup ((l.foldl fillDefaultsFor st).exposed_column_names) k = some v := by
  intro l
  induction l with
  | nil => intro st k v h; exact h
  | cons c l ih =>
    intro st k v h
    exact ih _ k v (fillDefaultsFor_mono_ex st c k v h)

lemma foldl_fill_mono_rt {α : Type} :
    ∀ (l : List String) (st : InitState α) (k : String) (v : α → α),
      dlookup st.read_transforms k = some v →
      dlookup ((l.foldl fillDefaultsFor st).read_transforms) k = some v := by
  intro l
  induction l with
  | nil => intro st k v h; exact h
  | cons c l ih =>
    intro st k v h
    exact ih _ k v (fillDefaultsFor_mono_rt st c k v h)

lemma foldl_fill_mono_wt {α : Type} :
    ∀ (l : List String) (st : InitState α) (k : String) (v : α → α),
      dlookup st.write_transforms k = some v →
      dlookup ((l.foldl fillDefaultsFor st).write_transforms) k = some v := by
  intro l
  induction l with
  | nil => intro st k v h; exact h
  | cons c l ih =>
    intro st k v h
    exact ih _ k v (fillDefaultsFor_mono_wt st c k v h)

lemma fillDefaultsFor_present_self {α : Type} (st : InitState α) (c : String) :
    (dlookup (fillDefaultsFor st c).exposed_column_names c).isSome = true ∧
    (dlookup (fillDefaultsFor st c).read_transforms c).isSome = true ∧
    (dlookup (fillDefaultsFor st c).write_transforms c).isSome = true := by
  unfold fillDefaultsFor
  refine ⟨?_, ?_, ?_⟩
  · by_cases h : (dlookup st.exposed_column_names c).isSome <;>
      simp [h, dlookup_dinsert_self]
  · by_cases h : (dlookup st.read_transforms c).isSome <;>
      simp [h, dlookup_dinsert_self]
  · by_cases h : (dlookup st.write_transforms c).isSome <;>
      simp [h, dlookup_dinsert_self]

lemma foldl_fill_present {α : Type} :
    ∀ (l : List String) (st : InitState α) (c : String), c ∈ l →
      (dlookup ((l.foldl fillDefaultsFor st).exposed_column_names) c).isSome = true ∧
      (dlookup ((l.foldl fillDefaultsFor st).read_transforms) c).isSome = true ∧
      (dlookup ((l.foldl fillDefaultsFor st).write_transforms) c).isSome = true := by
  intro l
  induction l with
  | nil => intro st c hc; simp at hc
  | cons c1 l ih =>
    intro st c hc
    simp only [List.foldl_cons]
    rcases List.mem_cons.mp hc with h | h
    · subst h
      obtain ⟨h1, h2, h3⟩ := fillDefaultsFor_present_self st c
      obtain ⟨v1, hv1⟩ := Option.isSome_iff_exists.mp h1
      obtain ⟨v2, hv2⟩ := Option.isSome_iff_exists.mp h2
      obtain ⟨v3, hv3⟩ := Option.isSome_iff_exists.mp h3
      refine ⟨?_, ?_, ?_⟩
      · rw [foldl_fill_mono_ex l _ c v1 hv1]; rfl
      · rw [foldl_fill_mono_rt l _ c v2 hv2]; rfl
      · rw [foldl_fill_mono_wt l _ c v3 hv3]; rfl
    · exact ih _ c h

/-- After construction every column of all_columns has an entry in the
exposed-name, read-transform and write-transform dictionaries. -/
lemma entityInit_wf {α : Type} (table : String) (columns read_columns : List String)
    (st : InitState α) (ad : Bool) (c : String)
    (hc : c ∈ (entityInit table columns read_columns st ad).1.all_columns) :
    ((dlookup (entityInit table columns read_columns st ad).1.column_name2exposed_name c).isSome = true) ∧
    ((dlookup (entityInit table columns read_columns st ad).1.read_transforms c).isSome = true) ∧
    ((dlookup (entityInit table columns read_columns st ad).1.write_transforms c).isSome = true) :=
  foldl_fill_present ("id" :: (columns ++ read_columns)) st c hc

/-! ## Codec lemmas -/

lemma convRowAux_ok_spec {α : Type} (e : Entity α) (data : Dict α) :
    ∀ (cs : List String) (vs : List α), convRowAux e data cs = .ok vs →
      vs.length = cs.length ∧
      ∀ (i : Nat) (c : String), cs[i]? = some c →
        ∃ (f : α → α) (ex : String) (v : α),
          dlookup e.write_transforms c = some f ∧
          dlookup e.column_name2exposed_name c = some ex ∧
          dlookup data ex = some v ∧
          vs[i]? = some (f v) := by
  intro cs
  induction cs with
  | nil =>
    intro vs h
    have hv : [] = vs := Except.ok.inj h
    subst hv
    exact ⟨rfl, fun i c hc => by simp at hc⟩
  | cons c cs ih =>
    intro vs h
    simp only [convRowAux] at h
    cases h1 : dlookup e.write_transforms c with
    | none => simp [h1] at h
    | some f =>
      simp only [h1] at h
      cases h2 : dlookup e.column_name2exposed_name c with
      | none => simp [h2] at h
      | some ex =>
        simp only [h2] at h
        cases h3 : dlookup data ex with
        | none => simp [h3] at h
        | some v =>
          simp only [h3] at h
          cases h4 : convRowAux e data cs with
          | error err => simp [h4] at h
          | ok vs2 =>
            simp only [h4] at h
            have hv : f v :: vs2 = vs := Except.ok.inj h
            subst hv
            obtain ⟨hlen, hpt⟩ := ih vs2 h4
            refine ⟨by simp [hlen], ?_⟩
            intro i c2 hc2
            cases i with
            | zero =>
              have hcc : c = c2 := by simpa using hc2
              subst hcc
              exact ⟨f, ex, v, h1, h2, h3, by simp⟩
            | succ n =>
              obtain ⟨f2, ex2, v2, ha, hb, hc3, hd⟩ := hpt n c2 (by simpa using hc2)
              exact ⟨f2, ex2, v2, ha, hb, hc3, by simpa using hd⟩

lemma convRowAux_total {α : Type} (e : Entity α) (r : Dict α) :
    ∀ (cs : List String),
      (∀ c ∈ cs, (dlookup e.write_transforms c).isSome = true ∧
                 (dlookup e.column_name2exposed_name c).isSome = true) →
      (∀ c ∈ cs, (dlookup r (exposedOf e c)).isSome = true) →
      ∃ vs, convRowAux e r cs = .ok vs := by
  intro cs
  induction cs with
  | nil => intro _ _; exact ⟨[], rfl⟩
  | cons c cs ih =>
    intro hwf hr
    obtain ⟨hwt, hex⟩ := hwf c (by simp)
    obtain ⟨f, hf⟩ := Option.isSome_iff_exists.mp hwt
    obtain ⟨ex, hexx⟩ := Option.isSome_iff_exists.mp hex
    have hee : exposedOf e c = ex := by simp [exposedOf, hexx]
    have hrc := hr c (by simp)
    rw [hee] at hrc
    obtain ⟨v, hv⟩ := Option.isSome_iff_exists.mp hrc
    obtain ⟨vs, hvs⟩ := ih (fun c2 h2 => hwf c2 (by simp [h2]))
      (fun c2 h2 => hr c2 (by simp [h2]))
    exact ⟨f v :: vs, by simp only [convRowAux, hf, hexx, hv, hvs]⟩

lemma convRowAux_missing {α : Type} (e : Entity α) (r : Dict α) :
    ∀ (cs : List String),
      (∀ c ∈ cs, (dlookup e.write_transforms c).isSome = true ∧
                 (dlookup e.column_name2exposed_name c).isSome = true) →
      (∃ c ∈ cs, dlookup r (exposedOf e c) = none) →
      ∃ k, convRowAux e r cs = .error (.keyError k) := by
  intro cs
  induction cs with
  | nil => intro _ h; simp at h
  | cons c cs ih =>
    intro hwf hmiss
    obtain ⟨hwt, hex⟩ := hwf c (by simp)
    obtain ⟨f, hf⟩ := Option.isSome_iff_exists.mp hwt
    obtain ⟨ex, hexx⟩ := Option.isSome_iff_exists.mp hex
    have hee : exposedOf e c = ex := by simp [exposedOf, hexx]
    cases hdc : dlookup r ex with
    | none => exact ⟨ex, by simp only [convRowAux, hf, hexx, hdc]⟩
    | some v =>
      have hmiss2 : ∃ c2 ∈ cs, dlookup r (exposedOf e c2) = none := by
        obtain ⟨c2, hc2, hn⟩ := hmiss
        rcases List.mem_cons.mp hc2 with h | h
        · exfalso
          rw [h, hee] at hn
          rw [hn] at hdc
          exact Option.noConfusion hdc
        · exact ⟨c2, h, hn⟩
      obtain ⟨k, hk⟩ := ih (fun c2 h2 => hwf c2 (by simp [h2])) hmiss2
      exact ⟨k, by simp only [convRowAux, hf, hexx, hdc, hk]⟩

lemma convPairs_ok_spec {α : Type} (e : Entity α) :
    ∀ (cs : List String) (row : List α),
      row.length = cs.length →
      (∀ c ∈ cs, (dlookup e.column_name2exposed_name c).isSome = true ∧
                 (dlookup e.read_transforms c).isSome = true) →
      ∃ pairs, convPairs e cs row = .ok pairs ∧
        pairs.map Prod.fst = cs.map (exposedOf e) ∧
        ∀ (i : Nat) (c : String) (v : α), cs[i]? = some c → row[i]? = some v →
          pairs[i]? = some (exposedOf e c, applyRT e c v) := by
  intro cs
  induction cs with
  | nil =>
    intro row hlen hwf
    exact ⟨[], by simp [convPairs], by simp, fun i c v hc => by simp at hc⟩
  | cons c cs ih =>
    intro row hlen hwf
    cases row with
    | nil => simp at hlen
    | cons v vs =>
      obtain ⟨hex, hrt⟩ := hwf c (by simp)
      obtain ⟨ex, hex2⟩ := Option.isSome_iff_exists.mp hex
      obtain ⟨f, hrt2⟩ := Option.isSome_iff_exists.mp hrt
      obtain ⟨pairs, hp, hkeys, hpt⟩ := ih vs (by simpa using hlen)
        (fun c2 hc2 => hwf c2 (by simp [hc2]))
      refine ⟨(ex, f v) :: pairs, ?_, ?_, ?_⟩
      · simp only [convPairs, hex2, hrt2, hp]
      · simp [List.map_cons, hkeys, exposedOf, hex2]
      · intro i c2 v2 hc2 hv2
        cases i with
        | zero =>
          have hcc : c = c2 := by simpa using hc2
          have hvv : v = v2 := by simpa using hv2
          subst hcc
          subst hvv
          simp [exposedOf, hex2, applyRT, hrt2]
        | succ n =>
          simpa using hpt n c2 v2 (by simpa using hc2) (by simpa using hv2)

/-! ## Identity-transform invariants and default-fill values -/

lemma fill_values_id_rt {α : Type} :
    ∀ (l : List String) (st : InitState α),
      (∀ p ∈ st.read_transforms, ∀ v : α, p.2 v = v) →
      ∀ p ∈ (l.foldl fillDefaultsFor st).read_transforms, ∀ v : α, p.2 v = v := by
  intro l
  induction l with
  | nil => intro st h; exact h
  | cons c l ih =>
    intro st h
    apply ih
    intro p hp v
    simp only [fillDefaultsFor] at hp
    by_cases hc : (dlookup st.read_transforms c).isSome
    · rw [if_pos hc] at hp
      exact h p hp v
    · rw [if_neg hc] at hp
      rcases mem_dinsert _ _ _ _ hp with h2 | h2
      · rw [h2]
      · exact h p h2 v

lemma fill_values_id_wt {α : Type} :
    ∀ (l : List String) (st : InitState α),
      (∀ p ∈ st.write_transforms, ∀ v : α, p.2 v = v) →
      ∀ p ∈ (l.foldl fillDefaultsFor st).write_transforms, ∀ v : α, p.2 v = v := by
  intro l
  induction l with
  | nil => intro st h; exact h
  | cons c l ih =>
    intro st h
    apply ih
    intro p hp v
    simp only [fillDefaultsFor] at hp
    by_cases hc : (dlookup st.write_transforms c).isSome
    · rw [if_pos hc] at hp
      exact h p hp v
    · rw [if_neg hc] at hp
      rcases mem_dinsert _ _ _ _ hp with h2 | h2
      · rw [h2]
      · exact h p h2 v

lemma fillDefaultsFor_ex_other {α : Type} (st : InitState α) (c1 c : String)
    (h : ¬ c = c1) :
    dlookup (fillDefaultsFor st c1).exposed_column_names c
      = dlookup st.exposed_column_names c := by
  simp only [fillDefaultsFor]
  by_cases hs : (dlookup st.exposed_column_names c1).isSome
  · rw [if_pos hs]
  · rw [if_neg hs]
    exact dlookup_dinsert_ne _ _ _ _ h

lemma foldl_fill_default_ex {α : Type} :
    ∀ (l : List String) (st : InitState α) (c : String), c ∈ l →
      dlookup st.exposed_column_names c = none →
      dlookup ((l.foldl fillDefaultsFor st).exposed_column_names) c = some c := by
  intro l
  induction l with
  | nil => intro st c hc _; simp at hc
  | cons c1 l ih =>
    intro st c hc hnone
    simp only [List.foldl_cons]
    by_cases h : c = c1
    · subst h
      have hself : dlookup (fillDefaultsFor st c).exposed_column_names c = some c := by
        simp only [fillDefaultsFor]
        rw [if_neg (by rw [hnone]; simp)]
        exact dlookup_dinsert_self _ _ _
      exact foldl_fill_mono_ex l _ c c hself
    · have hc2 : c ∈ l := by
        rcases List.mem_cons.mp hc with hh | hh
        · exact absurd hh h
        · exact hh
      have hnone2 : dlookup (fillDefaultsFor st c1).exposed_column_names c = none := by
        rw [fillDefaultsFor_ex_other st c1 c h]
        exact hnone
      exact ih _ c hc2 hnone2

/-! ## C6 -/

/-- C6: for a row of full length, decode zips all_columns positionally
against the row: at each position the column's read transform is
applied to the raw stored value first, and the transformed value is
keyed by the column's exposed name (stated for a constructed entity
whose exposed names are distinct, as the data model's invariant
requires). -/
theorem decode_transform_then_alias {α : Type} (table : String)
    (columns read_columns : List String) (rt0 wt0 : Dict (α → α)) (exp0 : Dict String)
    (ad : Bool) (row : List α) (e : Entity α)
    (he : e = (entityInit table columns read_columns ⟨rt0, wt0, exp0⟩ ad).1)
    (hlen : row.length = e.all_columns.length)
    (hnd : (e.all_columns.map (exposedOf e)).Nodup) :
    ∃ d, convert_to_dict e row = .ok d ∧
      ∀ (i : Nat) (c : String) (v : α),
        e.all_columns[i]? = some c → row[i]? = some v →
        dlookup d (exposedOf e c) = some (applyRT e c v) := by
  subst he
  have hwf : ∀ c ∈ (entityInit table columns read_columns ⟨rt0, wt0, exp0⟩ ad).1.all_columns,
      (dlookup (entityInit table columns read_columns ⟨rt0, wt0, exp0⟩ ad).1.column_name2exposed_name c).isSome = true ∧
      (dlookup (entityInit table columns read_columns ⟨rt0, wt0, exp0⟩ ad).1.read_transforms c).isSome = true := by
    intro c hc
    obtain ⟨h1, h2, _⟩ := entityInit_wf table columns read_columns ⟨rt0, wt0, exp0⟩ ad c hc
    exact ⟨h1, h2⟩
  obtain ⟨pairs, hp, hkeys, hpt⟩ := convPairs_ok_spec _ _ row hlen hwf
  refine ⟨dictOfPairs pairs, by simp only [convert_to_dict, hp], ?_⟩
  intro i c v hci hvi
  have hpi := hpt i c v hci hvi
  have hmem := List.getElem?_mem hpi
  exact dlookup_dictOfPairs pairs _ _ (by rw [hkeys]; exact hnd) hmem

/-- Entity with one writable column whose read transform adds one, used
to show the transform applies to the raw stored value. -/
def plusOneEntity : Entity Int :=
  (entityInit "t2" ["name"] ["deleted_at"] ⟨[("name", fun v => v + 1)], [], []⟩ true).1

/-- C6 witness: decoding the concrete row applies the read transform of
the name column to its raw stored value and keys it by the exposed
name; the transformed value is 11 for the stored 10. -/
theorem decode_transform_then_alias_witness :
    ∃ d, convert_to_dict plusOneEntity [1, 10, 0] = .ok d ∧
      dlookup d (exposedOf plusOneEntity "name")
        = some (applyRT plusOneEntity "name" 10) ∧
      applyRT plusOneEntity "name" 10 = 11 := by
  obtain ⟨d, hd, hpt⟩ := decode_transform_then_alias "t2" ["name"] ["deleted_at"]
    [("name", fun v => v + 1)] [] [] true [1, 10, 0] plusOneEntity rfl (by decide) (by decide)
  exact ⟨d, hd, hpt 1 "name" 10 (by decide) rfl, by decide⟩

/-! ## C7 -/

/-- C7: encode produces exactly one value per writable column, in
writable-column order, each obtained by looking the record up under the
column's exposed name and applying the column's write transform —
read-only columns and id contribute nothing — and a record missing a
writable column's exposed field makes encode fail with a KeyError. -/
theorem encode_writable_only_keyerror {α : Type} (table : String)
    (columns read_columns : List String) (rt0 wt0 : Dict (α → α)) (exp0 : Dict String)
    (ad : Bool) (r : Dict α) (e : Entity α)
    (he : e = (entityInit table columns read_columns ⟨rt0, wt0, exp0⟩ ad).1) :
    ((∀ c ∈ e.columns, (dlookup r (exposedOf e c)).isSome = true) →
      ∃ vs, convert_to_row e r = .ok vs ∧ vs.length = e.columns.length ∧
        ∀ (i : Nat) (c : String), e.columns[i]? = some c →
          ∃ v, dlookup r (exposedOf e c) = some v ∧ vs[i]? = some (applyWT e c v)) ∧
    ((∃ c ∈ e.columns, dlookup r (exposedOf e c) = none) →
      ∃ k, convert_to_row e r = .error (.keyError k)) := by
  subst he
  set E := (entityInit table columns read_columns ⟨rt0, wt0, exp0⟩ ad).1 with hE
  have hcols : E.columns = columns := rfl
  have hall : E.all_columns = "id" :: (columns ++ read_columns) := rfl
  have hsub : ∀ c ∈ E.columns, c ∈ E.all_columns := by
    intro c hc
    rw [hall]
    rw [hcols] at hc
    exact List.mem_cons_of_mem _ (List.mem_append_left _ hc)
  have hwf : ∀ c ∈ E.columns,
      (dlookup E.write_transforms c).isSome = true ∧
      (dlookup E.column_name2exposed_name c).isSome = true := by
    intro c hc
    obtain ⟨h1, _, h3⟩ := entityInit_wf table columns read_columns ⟨rt0, wt0, exp0⟩ ad c (hsub c hc)
    exact ⟨h3, h1⟩
  constructor
  · intro hall2
    obtain ⟨vs, hvs⟩ := convRowAux_total E r E.columns hwf hall2
    obtain ⟨hlen, hpt⟩ := convRowAux_ok_spec E r E.columns vs hvs
    refine ⟨vs, hvs, hlen, ?_⟩
    intro i c hci
    obtain ⟨f, ex, v, hf, hex, hv, hvsi⟩ := hpt i c hci
    have hee : exposedOf E c = ex := by simp [exposedOf, hex]
    refine ⟨v, by rw [hee]; exact hv, ?_⟩
    have hwtv : applyWT E c v = f v := by simp [applyWT, hf]
    rw [hwtv]
    exact hvsi
  · intro hmiss
    exact convRowAux_missing E r E.columns hwf hmiss

/-- C7 witness: on the group entity, a complete record encodes to one
value per writable column in order (the title value sits at index 1),
and the empty record fails with a KeyError. -/
theorem encode_writable_witness :
    (∃ vs, convert_to_row groupEntity [("name", 8), ("title", 9), ("description", 10)] = .ok vs ∧
      vs.length = 3 ∧
      ∃ v, dlookup [("name", (8 : Int)), ("title", 9), ("description", 10)]
        (exposedOf groupEntity "title") = some v ∧
        vs[1]? = some (applyWT groupEntity "title" v)) ∧
    (∃ k, convert_to_row groupEntity ([] : Dict Int) = .error (.keyError k)) := by
  have h := encode_writable_only_keyerror "membership_group"
    ["name", "title", "description"] ["created_at", "updated_at", "deleted_at"]
    [] [] [("id", "group_id")] true
    [("name", 8), ("title", 9), ("description", 10)] groupEntity rfl
  have h2 := encode_writable_only_keyerror "membership_group"
    ["name", "title", "description"] ["created_at", "updated_at", "deleted_at"]
    [] [] [("id", "group_id")] true ([] : Dict Int) groupEntity rfl
  constructor
  · obtain ⟨vs, hok, hlen, hpt⟩ := h.1 (by decide)
    refine ⟨vs, hok, hlen.trans (by decide), ?_⟩
    obtain ⟨v, hv, hvs⟩ := hpt 1 "title" (by decide)
    exact ⟨v, hv, hvs⟩
  · exact h2.2 ⟨"name", by decide, by decide⟩

/-! ## C2 -/

/-- C2: with all transforms the identity (none supplied, so
construction fills identities), encoding a record r of the writable
exposed fields and decoding a row whose writable positions hold that
encoding yields a record that agrees with r on every writable column's
exposed field, whatever the id and read-only positions hold (stated for
a constructed entity whose exposed names are distinct, as the data
model's invariant requires). -/
theorem roundtrip_writable_fields {α : Type} (table : String)
    (columns read_columns : List String) (exp0 : Dict String) (ad : Bool)
    (r : Dict α) (idv : α) (vs rest : List α) (e : Entity α)
    (he : e = (entityInit table columns read_columns ⟨[], [], exp0⟩ ad).1)
    (hnd : (e.all_columns.map (exposedOf e)).Nodup)
    (henc : convert_to_row e r = .ok vs)
    (hrest : rest.length = read_columns.length) :
    ∃ d, convert_to_dict e (idv :: (vs ++ rest)) = .ok d ∧
      ∀ c ∈ e.columns, dlookup d (exposedOf e c) = dlookup r (exposedOf e c) := by
  subst he
  set E := (entityInit table columns read_columns ⟨[], [], exp0⟩ ad).1 with hE
  have hcols : E.columns = columns := rfl
  have hallc : E.all_columns = "id" :: (columns ++ read_columns) := rfl
  have hsub : ∀ c ∈ E.columns, c ∈ E.all_columns := by
    intro c hc
    rw [hallc]
    rw [hcols] at hc
    exact List.mem_cons_of_mem _ (List.mem_append_left _ hc)
  have hid_rt : ∀ p ∈ E.read_transforms, ∀ v : α, p.2 v = v :=
    fill_values_id_rt ("id" :: (columns ++ read_columns)) ⟨[], [], exp0⟩
      (fun p hp => by simp at hp)
  have hid_wt : ∀ p ∈ E.write_transforms, ∀ v : α, p.2 v = v :=
    fill_values_id_wt ("id" :: (columns ++ read_columns)) ⟨[], [], exp0⟩
      (fun p hp => by simp at hp)
  have hwfall : ∀ c ∈ E.all_columns,
      (dlookup E.column_name2exposed_name c).isSome = true ∧
      (dlookup E.read_transforms c).isSome = true := by
    intro c hc
    obtain ⟨h1, h2, _⟩ := entityInit_wf table columns read_columns ⟨[], [], exp0⟩ ad c hc
    exact ⟨h1, h2⟩
  obtain ⟨hlenvs, hptr⟩ := convRowAux_ok_spec E r E.columns vs henc
  rw [hcols] at hlenvs
  have hrowlen : (idv :: (vs ++ rest)).length = E.all_columns.length := by
    rw [hallc]
    simp only [List.length_cons, List.length_append, hlenvs, hrest]
  obtain ⟨pairs, hp, hkeys, hpt⟩ :=
    convPairs_ok_spec E E.all_columns (idv :: (vs ++ rest)) hrowlen hwfall
  refine ⟨dictOfPairs pairs, by simp only [convert_to_dict, hp], ?_⟩
  intro c hc
  obtain ⟨i, hci⟩ := (mem_iff_getElemQ _ _).mp hc
  have hilt : i < columns.length := by
    rw [← hcols]
    exact (List.getElem?_eq_some.mp hci).1
  obtain ⟨f, ex, v, hf, hex, hv, hvsi⟩ := hptr i c hci
  have hee : exposedOf E c = ex := by simp [exposedOf, hex]
  have hfid : ∀ w : α, f w = w := fun w => hid_wt (c, f) (dlookup_mem _ _ _ hf) w
  have hci2 : E.all_columns[i + 1]? = some c := by
    rw [hallc]
    simp only [List.getElem?_cons_succ]
    rw [List.getElem?_append_left hilt]
    rw [hcols] at hci
    exact hci
  have hvi2 : (idv :: (vs ++ rest))[i + 1]? = some (f v) := by
    simp only [List.getElem?_cons_succ]
    rw [List.getElem?_append_left (by rw [hlenvs]; exact hilt)]
    exact hvsi
  have hpi := hpt (i + 1) c (f v) hci2 hvi2
  have hmem := List.getElem?_mem hpi
  have hdl := dlookup_dictOfPairs pairs _ _ (by rw [hkeys]; exact hnd) hmem
  obtain ⟨g, hg⟩ := Option.isSome_iff_exists.mp (hwfall c (hsub c hc)).2
  have hgid : ∀ w : α, g w = w := fun w => hid_rt (c, g) (dlookup_mem _ _ _ hg) w
  have happ : applyRT E c (f v) = v := by
    simp [applyRT, hg, hgid, hfid]
  rw [hdl, happ, hee]
  exact hv.symm

/-- Entity with one writable column exposed under an alias and no
transforms, used to exhibit the writable round-trip. -/
def aliasEntity : Entity Int :=
  (entityInit "t3" ["name"] ["deleted_at"] ⟨[], [], [("name", "n")]⟩ true).1

/-- C2 witness: the record holding 42 under the exposed alias n encodes
to the single writable value 42; decoding the row built from any id and
deleted_at around that encoding returns 42 under n again. -/
theorem roundtrip_writable_witness :
    convert_to_row aliasEntity [("n", 42)] = .ok [42] ∧
    ∃ d, convert_to_dict aliasEntity (7 :: ([42] ++ [0])) = .ok d ∧
      dlookup d (exposedOf aliasEntity "name")
        = dlookup [("n", (42 : Int))] (exposedOf aliasEntity "name") := by
  obtain ⟨d, hd, hpt⟩ := roundtrip_writable_fields "t3" ["name"] ["deleted_at"]
    [("name", "n")] true [("n", 42)] 7 [42] [0] aliasEntity rfl (by decide) (by decide) rfl
  exact ⟨by decide, d, hd, hpt "name" (by decide)⟩

/-! ## C10 -/

/-- C10: entityInit inserts a default entry into the read-transform,
write-transform and exposed-name dictionaries it receives for every
column of all_columns that is absent (the exposed default being the
column name itself), the constructed entity's own mapping is that same
mutated dictionary, and because Python default arguments are shared,
the entries survive unchanged into an Entity constructed later with the
dictionaries the first construction returned. -/
theorem shared_default_dicts_mutated {α : Type}
    (t1 : String) (cols1 rcols1 : List String) (ad1 : Bool)
    (t2 : String) (cols2 rcols2 : List String) (ad2 : Bool)
    (st0 : InitState α) (c : String)
    (hc : c ∈ (entityInit t1 cols1 rcols1 st0 ad1).1.all_columns) :
    ((dlookup (entityInit t1 cols1 rcols1 st0 ad1).2.exposed_column_names c).isSome = true) ∧
    ((dlookup (entityInit t1 cols1 rcols1 st0 ad1).2.read_transforms c).isSome = true) ∧
    ((dlookup (entityInit t1 cols1 rcols1 st0 ad1).2.write_transforms c).isSome = true) ∧
    (dlookup st0.exposed_column_names c = none →
      dlookup (entityInit t1 cols1 rcols1 st0 ad1).2.exposed_column_names c = some c) ∧
    ((entityInit t1 cols1 rcols1 st0 ad1).1.column_name2exposed_name =
      (entityInit t1 cols1 rcols1 st0 ad1).2.exposed_column_names) ∧
    (dlookup (entityInit t2 cols2 rcols2 ((entityInit t1 cols1 rcols1 st0 ad1).2) ad2).1.column_name2exposed_name c =
      dlookup (entityInit t1 cols1 rcols1 st0 ad1).2.exposed_column_names c) := by
  have hpres := foldl_fill_present ("id" :: (cols1 ++ rcols1)) st0 c hc
  refine ⟨hpres.1, hpres.2.1, hpres.2.2, ?_, rfl, ?_⟩
  · intro hnone
    exact foldl_fill_default_ex ("id" :: (cols1 ++ rcols1)) st0 c hc hnone
  · obtain ⟨v, hv⟩ := Option.isSome_iff_exists.mp hpres.1
    show dlookup (List.foldl fillDefaultsFor ((entityInit t1 cols1 rcols1 st0 ad1).2)
        ("id" :: (cols2 ++ rcols2))).exposed_column_names c =
      dlookup (List.foldl fillDefaultsFor st0 ("id" :: (cols1 ++ rcols1))).exposed_column_names c
    rw [hv]
    exact foldl_fill_mono_ex ("id" :: (cols2 ++ rcols2))
      ((entityInit t1 cols1 rcols1 st0 ad1).2) c v hv

/-- C10 witness: constructing an entity over column a with the empty
shared dictionaries inserts the default exposed entry a, and that entry
is still visible in the mapping of a second entity over column b
constructed with the dictionaries the first construction mutated. -/
theorem shared_default_dicts_witness :
    ((dlookup (entityInit "t1" ["a"] [] (⟨[], [], []⟩ : InitState Int) true).2.exposed_column_names "a").isSome = true) ∧
    (dlookup (entityInit "t1" ["a"] [] (⟨[], [], []⟩ : InitState Int) true).2.exposed_column_names "a" = some "a") ∧
    (dlookup (entityInit "t2" ["b"] [] ((entityInit "t1" ["a"] [] (⟨[], [], []⟩ : InitState Int) true).2) true).1.column_name2exposed_name "a" =
      dlookup (entityInit "t1" ["a"] [] (⟨[], [], []⟩ : InitState Int) true).2.exposed_column_names "a") := by
  have h := shared_default_dicts_mutated "t1" ["a"] [] true "t2" ["b"] [] true
    (⟨[], [], []⟩ : InitState Int) "a" (by decide)
  exact ⟨h.1, h.2.2.2.1 rfl, h.2.2.2.2.2⟩
